import Mathlib

/-!
Shallow embedding of `src/app/bettermail.go` (package `bettermail`), the
event-to-notification core of better-github-mail: payload decoding and routing
(`handlePayload`), push handling (`handlePushPayload`), commit-comment handling
(`handleCommitCommentPayload`), and the datastore-backed thread registry
(`createThread` / `getSubjectForCommit`).

Modelling conventions:
- Go strings are modelled as Lean `String`s; the payload domain (refs, SHAs,
  repository names) is ASCII, so byte indexing coincides with character
  indexing.  A Go slice expression `s[i:]` or `s[:n]` panics when the bound
  exceeds `len(s)`; this partiality is modelled by `Option` (`none` = panic).
- The App Engine datastore is modelled as a map from key strings to
  `EmailThread` records (`datastore.Put` = update, `datastore.Get` = lookup,
  a lookup error = `none`).  A `datastore.Put` failure is modelled by a
  caller-supplied failure oracle, since `createThread` ignores the error
  apart from logging it.
- External collaborators (the template engine, the markdown renderer, the
  put-failure oracle, `appengine.AppID`, `appengine.IsDevAppServer`) are
  fields of an `Env` record threaded through the handlers.  Template
  execution may fail (`Option String`, `none` = render error).
- Logging and date formatting have no observable effect on the produced
  notification and are not modelled.
-/

/-- Result of running a Go function that may panic (index/slice out of range)
or return a non-nil error alongside a nil message. -/
inductive GoResult (α : Type) where
  | panic : GoResult α
  | err : GoResult α
  | ok : α → GoResult α
deriving Repr

def GoResult.map {α β : Type} (f : α → β) : GoResult α → GoResult β
  | .panic => .panic
  | .err => .err
  | .ok a => .ok (f a)

/-- Go `s[i:]`: defined when `i ≤ len s`, otherwise a runtime panic. -/
def goSliceFrom (s : String) (i : Nat) : Option String :=
  if i ≤ s.length then some (s.drop i) else none

/-- Go `s[:n]`: defined when `n ≤ len s`, otherwise a runtime panic. -/
def goSliceTo (s : String) (n : Nat) : Option String :=
  if n ≤ s.length then some (s.take n) else none

/-- A commit author or committer record of the push payload (GitHub webhook
`commit.author` / `commit.committer`): username plus display name. -/
structure CommitUser where
  username : String
  name : String
deriving DecidableEq, Repr

/-- A raw commit record of the push payload. -/
structure Commit where
  id : String
  message : String
  author : CommitUser
  committer : CommitUser
deriving DecidableEq, Repr

/-- Repository identity of a webhook payload. -/
structure Repo where
  fullName : String
  url : String
deriving DecidableEq, Repr

/-- The `pusher` field of a push payload: a username only (`payload.Pusher.Name`). -/
structure Pusher where
  name : String
deriving DecidableEq, Repr

/-- `PushPayload`: the fields of the push webhook payload read by
`handlePushPayload`. -/
structure PushPayload where
  ref : String
  compare : String
  repo : Repo
  pusher : Pusher
  commits : List Commit
deriving DecidableEq, Repr

/-- The `comment` record of a commit-comment payload. -/
structure Comment where
  commitID : String
  body : String
deriving DecidableEq, Repr

/-- The `sender` record of a commit-comment payload (`payload.Sender.Login`). -/
structure Sender where
  login : String
deriving DecidableEq, Repr

/-- `CommitCommentPayload`: the fields of the commit-comment webhook payload
read by `handleCommitCommentPayload`. -/
structure CommitCommentPayload where
  repo : Repo
  comment : Comment
  sender : Sender
deriving DecidableEq, Repr

/-- First line of a commit message: everything before the first newline, or
the whole message when it has no newline. -/
def firstLine (s : String) : String :=
  s.takeWhile (fun c => c ≠ '\n')

/-- Display-ready view of one commit (the fields of `DisplayCommit` that
`handlePushPayload` reads: `SHA`, `ShortSHA`, `Title`, `URL`). -/
structure DisplayCommit where
  sha : String
  shortSHA : String
  title : String
  url : String
deriving DecidableEq, Repr

/-- Modelled from the spec: `newDisplayCommit` lives in a repository file that
is not under `src/` (only its caller `handlePushPayload` is).  Spec §4.3: the
short id is the first 7 characters of the commit id, the title is the first
line of the commit message, and the url is `{repoURL}/commit/{id}`.  The two
formatted-date fields are produced by an external time formatter and are not
read by any property here, so they are omitted. -/
def newDisplayCommit (repo : Repo) (commit : Commit) : DisplayCommit :=
  { sha := commit.id
    shortSHA := commit.id.take 7
    title := firstLine commit.message
    url := repo.url ++ "/commit/" ++ commit.id }

/-- The persisted `EmailThread` datastore entity. -/
structure EmailThread where
  commitSHA : String
  subject : String
deriving DecidableEq, Repr

/-- The `EmailThread` kind of the App Engine datastore, keyed by commit SHA. -/
def Datastore : Type := String → Option EmailThread

/-- `datastore.Put`: store `t` under `key` (upsert; last write wins). -/
def datastorePut (ds : Datastore) (key : String) (t : EmailThread) : Datastore :=
  fun k => if k = key then some t else ds k

/-- `datastore.Get`: look up the entity stored under `key`; `none` models a
lookup error (no such entity). -/
def datastoreGet (ds : Datastore) (key : String) : Option EmailThread :=
  ds key

/-- `createThread`: build an `EmailThread` for `sha` and `datastore.Put` it.
A put failure (`fail = true`) is only logged, so the store is returned
unchanged and no error propagates to the caller. -/
def createThread (fail : Bool) (sha subject : String) (ds : Datastore) : Datastore :=
  if fail then ds else datastorePut ds sha { commitSHA := sha, subject := subject }

/-- `getSubjectForCommit`: fetch the `EmailThread` for `sha`; on a lookup
error return the empty string, otherwise the stored subject. -/
def getSubjectForCommit (ds : Datastore) (sha : String) : String :=
  match datastoreGet ds sha with
  | none => ""
  | some thread => thread.subject

/-- An outgoing `mail.Message` (the fields `handlePushPayload` and
`handleCommitCommentPayload` populate). -/
structure MailMessage where
  sender : String
  To : List String
  subject : String
  htmlBody : String
deriving DecidableEq, Repr

/-- The context map handed to the `"push"` template (the date entries are
produced by the external time formatter and not modelled). -/
structure PushContext where
  payload : PushPayload
  commits : List DisplayCommit
  branchName : String
  branchURL : String
  extensionURL : String
deriving DecidableEq, Repr

/-- The context map handed to the `"commit-comment"` template (the date entry
is produced by the external time formatter and not modelled). -/
structure CommentContext where
  payload : CommitCommentPayload
  comment : Comment
  sender : Sender
  repo : Repo
  shortSHA : String
  body : String
  commitURL : String
deriving DecidableEq, Repr

/-- External collaborators of the handlers: template execution for the two
templates (`none` = render error), the markdown renderer
(`renderMessageMarkdown`), the datastore put-failure oracle (keyed by the SHA
being written), `appengine.AppID`, and `appengine.IsDevAppServer`. -/
structure Env where
  renderPush : PushContext → Option String
  renderComment : CommentContext → Option String
  renderMarkdown : String → Repo → String
  putFails : String → Bool
  appID : String
  isDev : Bool

/-- `getRecipient`: a fixed development address on the dev app server,
otherwise the fixed operational address. -/
def getRecipient (isDev : Bool) : String :=
  if isDev then "mihai@quip.com" else "eng+commits@quip.com"

/-- The sender display-name loop of `handlePushPayload` (lines 137-151):
scan the commits in payload order; within each commit check the author
username first, then the committer username, against the pusher username;
stop at the first match; fall back to the raw username. -/
def resolveSenderName (senderUserName : String) : List Commit → String
  | [] => senderUserName
  | commit :: rest =>
    if commit.author.username = senderUserName then commit.author.name
    else if commit.committer.username = senderUserName then commit.committer.name
    else resolveSenderName senderUserName rest

/-- The anchor (extension) link of `handlePushPayload` (lines 119-122):
`displayCommits[0].URL` (a panic when the list is empty), overridden by the
push's compare URL when more than one commit is present. -/
def pushExtensionUrl (payload : PushPayload) (displayCommits : List DisplayCommit) :
    Option String :=
  match displayCommits with
  | [] => none
  | first :: _ =>
    some (if displayCommits.length > 1 then payload.compare else first.url)

/-- The subject format string of `handlePushPayload` (line 155):
`"[%s] %s: %s"` applied to the repository full name and a display commit's
short SHA and title. -/
def pushSubject (fullName : String) (dc : DisplayCommit) : String :=
  "[" ++ fullName ++ "] " ++ dc.shortSHA ++ ": " ++ dc.title

/-- `handlePushPayload`: build display commits, strip `"refs/heads/"` from the
ref by a fixed 11-byte slice, choose the anchor link, render the `"push"`
template, resolve the sender, derive the subject from the first display
commit, register every commit's SHA with that subject, and return the
message.  The returned `Datastore` is the registry after the `createThread`
loop. -/
def handlePushPayload (env : Env) (payload : PushPayload) (ds : Datastore) :
    GoResult (MailMessage × Datastore) :=
  let displayCommits := payload.commits.map (fun c => newDisplayCommit payload.repo c)
  match goSliceFrom payload.ref 11 with
  | none => .panic
  | some branchName =>
    let branchUrl := "https://github.com/" ++ payload.repo.fullName ++ "/tree/" ++ branchName
    match pushExtensionUrl payload displayCommits with
    | none => .panic
    | some extensionUrl =>
      let data : PushContext :=
        { payload := payload
          commits := displayCommits
          branchName := branchName
          branchURL := branchUrl
          extensionURL := extensionUrl }
      match env.renderPush data with
      | none => .err
      | some mailHtml =>
        let senderUserName := payload.pusher.name
        let senderName := resolveSenderName senderUserName payload.commits
        let sender := senderName ++ " <" ++ senderUserName ++ "@" ++ env.appID ++ ".appspotmail.com>"
        match displayCommits with
        | [] => .panic
        | subjectCommit :: _ =>
          let subject := pushSubject payload.repo.fullName subjectCommit
          let ds' := displayCommits.foldl
            (fun d dc => createThread (env.putFails dc.sha) dc.sha subject d) ds
          .ok ({ sender := sender
                 To := [getRecipient env.isDev]
                 subject := subject
                 htmlBody := mailHtml }, ds')

/-- The comment body of `handleCommitCommentPayload` (lines 179-182): a
non-empty body is passed through `renderMessageMarkdown`; an empty body is
left untouched. -/
def renderCommentBody (md : String → Repo → String) (repo : Repo) (body : String) : String :=
  if body.length > 0 then md body repo else body

/-- The context map `handleCommitCommentPayload` builds for the
`"commit-comment"` template (lines 184-193). -/
def mkCommentContext (md : String → Repo → String) (payload : CommitCommentPayload)
    (shortSHA commitURL : String) : CommentContext :=
  { payload := payload
    comment := payload.comment
    sender := payload.sender
    repo := payload.repo
    shortSHA := shortSHA
    body := renderCommentBody md payload.repo payload.comment.body
    commitURL := commitURL }

/-- `handleCommitCommentPayload`: take the first 7 characters of the commit id
(a panic when it is shorter), build the commit URL, render the body markdown
when non-empty, render the `"commit-comment"` template, look the subject up in
the thread registry with the bracketed short-SHA fallback, and return the
message.  The registry is only read. -/
def handleCommitCommentPayload (env : Env) (payload : CommitCommentPayload)
    (ds : Datastore) : GoResult MailMessage :=
  let commitSHA := payload.comment.commitID
  match goSliceTo commitSHA 7 with
  | none => .panic
  | some commitShortSHA =>
    let commitURL := payload.repo.url ++ "/commit/" ++ commitSHA
    let data := mkCommentContext env.renderMarkdown payload commitShortSHA commitURL
    match env.renderComment data with
    | none => .err
    | some mailHtml =>
      let senderUserName := payload.sender.login
      let senderName := senderUserName
      let sender := senderName ++ " <" ++ senderUserName ++ "@" ++ env.appID ++ ".appspotmail.com>"
      let subject := getSubjectForCommit ds commitSHA
      let subject := if subject = ""
        then "[" ++ payload.repo.fullName ++ "] " ++ commitShortSHA
        else subject
      .ok { sender := sender
            To := [getRecipient env.isDev]
            subject := subject
            htmlBody := mailHtml }

/-- The raw request body as seen through `json.Decoder`: attempting to decode
it as either payload shape either succeeds with a typed payload or fails
(`none` = malformed structure for that shape). -/
structure RawBody where
  decodePush : Option PushPayload
  decodeComment : Option CommitCommentPayload

/-- `handlePayload`: route on the event-type tag.  `"push"` and
`"commit_comment"` decode the body and dispatch to their handler (a decode
failure is returned as an error); any other tag returns `(nil, nil)` — no
message and no error — without touching the body. -/
def handlePayload (env : Env) (eventType : String) (body : RawBody) (ds : Datastore) :
    GoResult (Option MailMessage × Datastore) :=
  if eventType = "push" then
    match body.decodePush with
    | none => .err
    | some payload =>
      match handlePushPayload env payload ds with
      | .panic => .panic
      | .err => .err
      | .ok (m, ds') => .ok (some m, ds')
  else if eventType = "commit_comment" then
    match body.decodeComment with
    | none => .err
    | some payload =>
      match handleCommitCommentPayload env payload ds with
      | .panic => .panic
      | .err => .err
      | .ok m => .ok (some m, ds)
  else
    .ok (none, ds)

/-- An environment whose template executions always succeed; used to state
properties of requests that reach the notification-assembly stage
(`rp`/`rc` are the successful template outputs, `pf` the put-failure
oracle). -/
def totalEnv (rp : PushContext → String) (rc : CommentContext → String)
    (md : String → Repo → String) (pf : String → Bool)
    (appID : String) (isDev : Bool) : Env :=
  { renderPush := fun ctx => some (rp ctx)
    renderComment := fun ctx => some (rc ctx)
    renderMarkdown := md
    putFails := pf
    appID := appID
    isDev := isDev }

/-- The empty thread registry. -/
def emptyDatastore : Datastore := fun _ => none

/-- Concrete repository used by the witness instances. -/
def repoEx : Repo :=
  { fullName := "org/repo", url := "https://github.com/org/repo" }

/-- Concrete first commit (title `"Fix bug"`, id starting `abc1234`) used by
the witness instances. -/
def commitFixBug : Commit :=
  { id := "abc1234def0000000000000000000000000000ff"
    message := "Fix bug"
    author := { username := "alice", name := "Alice Smith" }
    committer := { username := "bob", name := "Bob Jones" } }

/-- Concrete second commit (title `"Add test"`) used by the witness
instances. -/
def commitAddTest : Commit :=
  { id := "9876543aaaa000000000000000000000000000ff"
    message := "Add test"
    author := { username := "carol", name := "Carol White" }
    committer := { username := "dave", name := "Dave Black" } }

/-- Concrete two-commit push payload used by the witness instances. -/
def pushEx : PushPayload :=
  { ref := "refs/heads/main"
    compare := "https://github.com/org/repo/compare/aaa...bbb"
    repo := repoEx
    pusher := { name := "alice" }
    commits := [commitFixBug, commitAddTest] }

/-- Concrete single-commit push payload used by the witness instances. -/
def pushSingleEx : PushPayload :=
  { ref := "refs/heads/main"
    compare := "https://github.com/org/repo/compare/aaa...bbb"
    repo := repoEx
    pusher := { name := "zoe" }
    commits := [commitFixBug] }

/-- Concrete commit-comment payload on the first example commit,
used by the witness instances. -/
def commentEx : CommitCommentPayload :=
  { repo := repoEx
    comment := { commitID := "abc1234def0000000000000000000000000000ff", body := "LGTM" }
    sender := { login := "erin" } }

/-- A write of some other key through `createThread` (or a failed write)
leaves the entry read back for `k` unchanged; lifted to the registration
fold of `handlePushPayload` over keys `k` does not occur among. -/
theorem foldl_createThread_skip (dcs : List DisplayCommit) (S : String) (ds : Datastore)
    (k : String) (h : k ∉ dcs.map DisplayCommit.sha) :
    (dcs.foldl (fun d dc => createThread false dc.sha S d) ds) k = ds k := by
  induction dcs generalizing ds with
  | nil => rfl
  | cons dc rest ih =>
    simp only [List.map_cons, List.mem_cons, not_or] at h
    rw [List.foldl_cons, ih _ h.2]
    simp [createThread, datastorePut, h.1]

/-- After the registration fold of `handlePushPayload`, every key occurring
among the written SHAs is mapped to an `EmailThread` carrying the common
subject `S`. -/
theorem foldl_createThread_mem (dcs : List DisplayCommit) (S : String) (ds : Datastore)
    (k : String) (h : k ∈ dcs.map DisplayCommit.sha) :
    (dcs.foldl (fun d dc => createThread false dc.sha S d) ds) k
      = some { commitSHA := k, subject := S } := by
  induction dcs generalizing ds with
  | nil => simp at h
  | cons dc rest ih =>
    rw [List.foldl_cons]
    by_cases hk : k ∈ rest.map DisplayCommit.sha
    · exact ih _ hk
    · have hdc : k = dc.sha := by
        simp only [List.map_cons, List.mem_cons] at h
        tauto
      rw [foldl_createThread_skip rest S _ k hk]
      simp [createThread, datastorePut, hdc]

/-- C1: for every push payload with a non-empty commit list, the derived
subject is `"[{repoFullName}] {shortID}: {title}"` built from the FIRST
commit in payload order, and the registry put is performed for every commit
in the push with that identical subject string. -/
theorem push_subject_first_commit_registered_all
    (rp : PushContext → String) (rc : CommentContext → String)
    (md : String → Repo → String) (appID : String) (isDev : Bool)
    (payload : PushPayload) (ds : Datastore)
    (first : Commit) (rest : List Commit)
    (hcommits : payload.commits = first :: rest)
    (href : 11 ≤ payload.ref.length) :
    ∃ m ds',
      handlePushPayload (totalEnv rp rc md (fun _ => false) appID isDev) payload ds
        = .ok (m, ds')
      ∧ m.subject
          = "[" ++ payload.repo.fullName ++ "] " ++ first.id.take 7 ++ ": "
              ++ firstLine first.message
      ∧ ∀ commit ∈ payload.commits, getSubjectForCommit ds' commit.id = m.subject := by
  have hslice : goSliceFrom payload.ref 11 = some (payload.ref.drop 11) := by
    simp [goSliceFrom, href]
  simp only [handlePushPayload, hcommits, List.map_cons, hslice, pushExtensionUrl, totalEnv]
  refine ⟨_, _, rfl, ?_, ?_⟩
  · simp [pushSubject, newDisplayCommit]
  · intro commit hc
    have hmem : commit.id
        ∈ ((newDisplayCommit payload.repo first
            :: rest.map (fun c => newDisplayCommit payload.repo c)).map DisplayCommit.sha) := by
      rcases List.mem_cons.mp hc with hc | hc
      · subst hc
        simp [newDisplayCommit]
      · refine List.mem_map.mpr ⟨newDisplayCommit payload.repo commit, ?_, rfl⟩
        exact List.mem_cons_of_mem _ (List.mem_map.mpr ⟨commit, hc, rfl⟩)
    rw [getSubjectForCommit, datastoreGet]
    rw [foldl_createThread_mem _ _ _ _ hmem]

/-- Witness for C1: the two-commit example push (first commit titled
`"Fix bug"`, id starting `abc1234`) yields subject
`"[org/repo] abc1234: Fix bug"` registered for both commit ids. -/
theorem push_subject_first_commit_registered_all_witness :
    pushEx.commits = commitFixBug :: [commitAddTest]
    ∧ 11 ≤ pushEx.ref.length
    ∧ ∃ m ds',
        handlePushPayload
            (totalEnv (fun _ => "P") (fun _ => "C") (fun s _ => s) (fun _ => false) "app" false)
            pushEx emptyDatastore
          = .ok (m, ds')
        ∧ m.subject
            = "[" ++ pushEx.repo.fullName ++ "] " ++ commitFixBug.id.take 7 ++ ": "
                ++ firstLine commitFixBug.message
        ∧ ∀ commit ∈ pushEx.commits, getSubjectForCommit ds' commit.id = m.subject :=
  ⟨rfl, by decide,
    push_subject_first_commit_registered_all _ _ _ _ _ pushEx emptyDatastore
      commitFixBug [commitAddTest] rfl (by decide)⟩

/-- The push subject always starts with `"["`, hence is never the empty
string (so a thread-registry hit on a push-produced subject is never
mistaken for a miss). -/
theorem pushSubject_ne_empty (fullName : String) (dc : DisplayCommit) :
    pushSubject fullName dc ≠ "" := by
  intro h
  have hlen := congrArg String.length h
  simp [pushSubject, String.length_append] at hlen
  exact absurd hlen.1.1.1.1.1 (by decide)

/-- Successful-push characterization: under an always-succeeding renderer and
datastore, `handlePushPayload` on a non-empty commit list and a well-formed
ref returns a message whose subject is the push subject of the first commit
and whose sender is the resolved display name, and leaves every pushed
commit id mapped to an `EmailThread` with that subject. -/
theorem handlePushPayload_spec
    (rp : PushContext → String) (rc : CommentContext → String)
    (md : String → Repo → String) (appID : String) (isDev : Bool)
    (payload : PushPayload) (ds : Datastore)
    (first : Commit) (rest : List Commit)
    (hcommits : payload.commits = first :: rest)
    (href : 11 ≤ payload.ref.length) :
    ∃ m ds',
      handlePushPayload (totalEnv rp rc md (fun _ => false) appID isDev) payload ds
        = .ok (m, ds')
      ∧ m.subject = pushSubject payload.repo.fullName (newDisplayCommit payload.repo first)
      ∧ m.sender
          = resolveSenderName payload.pusher.name payload.commits
              ++ " <" ++ payload.pusher.name ++ "@" ++ appID ++ ".appspotmail.com>"
      ∧ ∀ commit ∈ payload.commits,
          datastoreGet ds' commit.id
            = some { commitSHA := commit.id, subject := m.subject } := by
  have hslice : goSliceFrom payload.ref 11 = some (payload.ref.drop 11) := by
    simp [goSliceFrom, href]
  simp only [handlePushPayload, hcommits, List.map_cons, hslice, pushExtensionUrl, totalEnv]
  refine ⟨_, _, rfl, rfl, rfl, ?_⟩
  intro commit hc
  have hmem : commit.id
      ∈ ((newDisplayCommit payload.repo first
          :: rest.map (fun c => newDisplayCommit payload.repo c)).map DisplayCommit.sha) := by
    rcases List.mem_cons.mp hc with hc | hc
    · subst hc
      simp [newDisplayCommit]
    · refine List.mem_map.mpr ⟨newDisplayCommit payload.repo commit, ?_, rfl⟩
      exact List.mem_cons_of_mem _ (List.mem_map.mpr ⟨commit, hc, rfl⟩)
  rw [datastoreGet]
  rw [foldl_createThread_mem _ _ _ _ hmem]

/-- Successful-comment characterization: under an always-succeeding renderer,
`handleCommitCommentPayload` on a commit id of length at least 7 returns a
message whose subject is the registry subject when that is non-empty, and
the bracketed short-id fallback otherwise. -/
theorem handleCommitCommentPayload_subject
    (rp : PushContext → String) (rc : CommentContext → String)
    (md : String → Repo → String) (pf : String → Bool) (appID : String) (isDev : Bool)
    (q : CommitCommentPayload) (ds : Datastore)
    (h7 : 7 ≤ q.comment.commitID.length) :
    ∃ m2,
      handleCommitCommentPayload (totalEnv rp rc md pf appID isDev) q ds = .ok m2
      ∧ m2.subject
          = (if getSubjectForCommit ds q.comment.commitID = ""
             then "[" ++ q.repo.fullName ++ "] " ++ q.comment.commitID.take 7
             else getSubjectForCommit ds q.comment.commitID) := by
  have hslice : goSliceTo q.comment.commitID 7 = some (q.comment.commitID.take 7) := by
    simp [goSliceTo, h7]
  simp only [handleCommitCommentPayload, hslice, totalEnv]
  exact ⟨_, rfl, rfl⟩

/-- C8: `createThread` (the ThreadRegistry put) is idempotent: a second put
with the same SHA and the same subject leaves the store identical to one
put, and a subsequent `getSubjectForCommit` for that SHA returns that
subject. -/
theorem createThread_idempotent_get (ds : Datastore) (sha subject : String) :
    createThread false sha subject (createThread false sha subject ds)
        = createThread false sha subject ds
    ∧ getSubjectForCommit (createThread false sha subject ds) sha = subject := by
  constructor
  · funext k
    by_cases h : k = sha <;> simp [createThread, datastorePut, h]
  · simp [getSubjectForCommit, datastoreGet, createThread, datastorePut]

/-- C2: a commit-comment notification's subject is the registry subject
verbatim when the lookup hits — in particular a comment following a push on
any commit of that push reuses exactly the push's subject — and on a miss it
is exactly `"[{repoFullName}] {first 7 characters of commitID}"`. -/
theorem comment_subject_thread_reuse_or_fallback :
    (∀ (rp : PushContext → String) (rc : CommentContext → String)
        (md : String → Repo → String) (appID : String) (isDev : Bool)
        (p : PushPayload) (q : CommitCommentPayload) (ds : Datastore)
        (first : Commit) (rest : List Commit) (commit : Commit),
      p.commits = first :: rest → 11 ≤ p.ref.length →
      commit ∈ p.commits → q.comment.commitID = commit.id →
      7 ≤ q.comment.commitID.length →
      ∃ m ds' m2,
        handlePushPayload (totalEnv rp rc md (fun _ => false) appID isDev) p ds
          = .ok (m, ds')
        ∧ handleCommitCommentPayload (totalEnv rp rc md (fun _ => false) appID isDev) q ds'
            = .ok m2
        ∧ m2.subject = m.subject)
    ∧ (∀ (rp : PushContext → String) (rc : CommentContext → String)
          (md : String → Repo → String) (appID : String) (isDev : Bool)
          (q : CommitCommentPayload) (ds : Datastore),
        datastoreGet ds q.comment.commitID = none →
        7 ≤ q.comment.commitID.length →
        ∃ m2,
          handleCommitCommentPayload (totalEnv rp rc md (fun _ => false) appID isDev) q ds
            = .ok m2
          ∧ m2.subject = "[" ++ q.repo.fullName ++ "] " ++ q.comment.commitID.take 7) := by
  constructor
  · intro rp rc md appID isDev p q ds first rest commit hcommits href hc hid h7
    obtain ⟨m, ds', hpush, hsubj, _, hreg⟩ :=
      handlePushPayload_spec rp rc md appID isDev p ds first rest hcommits href
    obtain ⟨m2, hcomment, hsubj2⟩ :=
      handleCommitCommentPayload_subject rp rc md (fun _ => false) appID isDev q ds' h7
    refine ⟨m, ds', m2, hpush, hcomment, ?_⟩
    have hget : getSubjectForCommit ds' q.comment.commitID = m.subject := by
      rw [getSubjectForCommit, hid, hreg commit hc]
    rw [hsubj2, hget, hsubj]
    rw [if_neg (pushSubject_ne_empty _ _)]
  · intro rp rc md appID isDev q ds hmiss h7
    obtain ⟨m2, hcomment, hsubj2⟩ :=
      handleCommitCommentPayload_subject rp rc md (fun _ => false) appID isDev q ds h7
    refine ⟨m2, hcomment, ?_⟩
    have hempty : getSubjectForCommit ds q.comment.commitID = "" := by
      rw [getSubjectForCommit, hmiss]
    rw [hsubj2, hempty]
    simp

/-- Witness for C2: pushing `pushEx` and then commenting on its first commit
reuses the push subject; a comment against the empty registry falls back to
the bracketed short id. -/
theorem comment_subject_thread_reuse_or_fallback_witness :
    (∃ m ds' m2,
        handlePushPayload
            (totalEnv (fun _ => "P") (fun _ => "C") (fun s _ => s) (fun _ => false) "app" false)
            pushEx emptyDatastore
          = .ok (m, ds')
        ∧ handleCommitCommentPayload
              (totalEnv (fun _ => "P") (fun _ => "C") (fun s _ => s) (fun _ => false) "app" false)
              commentEx ds'
            = .ok m2
        ∧ m2.subject = m.subject)
    ∧ (∃ m2,
        handleCommitCommentPayload
            (totalEnv (fun _ => "P") (fun _ => "C") (fun s _ => s) (fun _ => false) "app" false)
            commentEx emptyDatastore
          = .ok m2
        ∧ m2.subject = "[" ++ commentEx.repo.fullName ++ "] " ++ commentEx.comment.commitID.take 7) :=
  ⟨comment_subject_thread_reuse_or_fallback.1 _ _ _ "app" false pushEx commentEx emptyDatastore
      commitFixBug [commitAddTest] commitFixBug rfl (by decide) (by decide) rfl (by decide),
   comment_subject_thread_reuse_or_fallback.2 _ _ _ "app" false commentEx emptyDatastore
      rfl (by decide)⟩

/-- C3: for a push payload with exactly one commit the anchor (extension)
link is that commit's own URL; with two or more commits it is the push's
compare URL. -/
theorem push_anchor_single_commit_or_compare :
    (∀ (payload : PushPayload) (c : Commit),
      payload.commits = [c] →
      pushExtensionUrl payload (payload.commits.map (fun x => newDisplayCommit payload.repo x))
        = some (payload.repo.url ++ "/commit/" ++ c.id))
    ∧ (∀ (payload : PushPayload),
        2 ≤ payload.commits.length →
        pushExtensionUrl payload (payload.commits.map (fun x => newDisplayCommit payload.repo x))
          = some payload.compare) := by
  constructor
  · intro payload c hc
    rw [hc]
    simp [pushExtensionUrl, newDisplayCommit]
  · intro payload hlen
    match hcm : payload.commits with
    | [] => rw [hcm] at hlen; simp at hlen
    | [a] => rw [hcm] at hlen; simp at hlen
    | a :: b :: t =>
      have hgt : 1 < ((a :: b :: t).map (fun x => newDisplayCommit payload.repo x)).length := by
        simp
      simp [pushExtensionUrl, hgt]

/-- Witness for C3: the single-commit example push anchors at the commit's
URL; the two-commit example push anchors at the compare URL. -/
theorem push_anchor_single_commit_or_compare_witness :
    (pushSingleEx.commits = [commitFixBug]
      ∧ pushExtensionUrl pushSingleEx
          (pushSingleEx.commits.map (fun x => newDisplayCommit pushSingleEx.repo x))
        = some (pushSingleEx.repo.url ++ "/commit/" ++ commitFixBug.id))
    ∧ (2 ≤ pushEx.commits.length
      ∧ pushExtensionUrl pushEx
          (pushEx.commits.map (fun x => newDisplayCommit pushEx.repo x))
        = some pushEx.compare) :=
  ⟨⟨rfl, push_anchor_single_commit_or_compare.1 pushSingleEx commitFixBug rfl⟩,
   ⟨by decide, push_anchor_single_commit_or_compare.2 pushEx (by decide)⟩⟩

/-- C4: the push sender display name scans the commit list in payload order,
author username before committer username within a commit, stopping at the
first match; with no match the raw pusher username is used; and the
assembled message's sender line uses the resolved name. -/
theorem push_sender_display_name_resolution :
    (∀ (u : String) (commits : List Commit),
      (∀ c ∈ commits, c.author.username ≠ u ∧ c.committer.username ≠ u) →
      resolveSenderName u commits = u)
    ∧ (∀ (u : String) (pre : List Commit) (c : Commit) (post : List Commit),
        (∀ c' ∈ pre, c'.author.username ≠ u ∧ c'.committer.username ≠ u) →
        (c.author.username = u →
          resolveSenderName u (pre ++ c :: post) = c.author.name)
        ∧ (c.author.username ≠ u → c.committer.username = u →
          resolveSenderName u (pre ++ c :: post) = c.committer.name))
    ∧ (∀ (rp : PushContext → String) (rc : CommentContext → String)
          (md : String → Repo → String) (appID : String) (isDev : Bool)
          (payload : PushPayload) (ds : Datastore) (first : Commit) (rest : List Commit),
        payload.commits = first :: rest → 11 ≤ payload.ref.length →
        ∃ m ds',
          handlePushPayload (totalEnv rp rc md (fun _ => false) appID isDev) payload ds
            = .ok (m, ds')
          ∧ m.sender
              = resolveSenderName payload.pusher.name payload.commits
                  ++ " <" ++ payload.pusher.name ++ "@" ++ appID ++ ".appspotmail.com>") := by
  refine ⟨?_, ?_, ?_⟩
  · intro u commits h
    induction commits with
    | nil => rfl
    | cons c rest ih =>
      have hc := h c (List.mem_cons_self c rest)
      rw [resolveSenderName, if_neg hc.1, if_neg hc.2]
      exact ih (fun c' hc' => h c' (List.mem_cons_of_mem c hc'))
  · intro u pre c post
    induction pre with
    | nil =>
      intro _
      constructor
      · intro ha
        rw [List.nil_append, resolveSenderName, if_pos ha]
      · intro ha hcm
        rw [List.nil_append, resolveSenderName, if_neg ha, if_pos hcm]
    | cons d pre' ih =>
      intro h
      have hd := h d (List.mem_cons_self d pre')
      have hrec := ih (fun c' hc' => h c' (List.mem_cons_of_mem d hc'))
      constructor
      · intro ha
        rw [List.cons_append, resolveSenderName, if_neg hd.1, if_neg hd.2]
        exact hrec.1 ha
      · intro ha hcm
        rw [List.cons_append, resolveSenderName, if_neg hd.1, if_neg hd.2]
        exact hrec.2 ha hcm
  · intro rp rc md appID isDev payload ds first rest hcommits href
    obtain ⟨m, ds', hpush, _, hsender, _⟩ :=
      handlePushPayload_spec rp rc md appID isDev payload ds first rest hcommits href
    exact ⟨m, ds', hpush, hsender⟩

/-- Witness for C4: no matching commit falls back to the raw username; a
committer match after a non-matching commit wins; the example push's message
sender uses the resolved display name. -/
theorem push_sender_display_name_resolution_witness :
    resolveSenderName "zoe" pushEx.commits = "zoe"
    ∧ ((commitFixBug.author.username = "bob" →
          resolveSenderName "bob" ([commitAddTest] ++ commitFixBug :: [])
            = commitFixBug.author.name)
        ∧ (commitFixBug.author.username ≠ "bob" → commitFixBug.committer.username = "bob" →
          resolveSenderName "bob" ([commitAddTest] ++ commitFixBug :: [])
            = commitFixBug.committer.name))
    ∧ (∃ m ds',
        handlePushPayload
            (totalEnv (fun _ => "P") (fun _ => "C") (fun s _ => s) (fun _ => false) "app" false)
            pushEx emptyDatastore
          = .ok (m, ds')
        ∧ m.sender
            = resolveSenderName pushEx.pusher.name pushEx.commits
                ++ " <" ++ pushEx.pusher.name ++ "@" ++ "app" ++ ".appspotmail.com>") :=
  ⟨push_sender_display_name_resolution.1 "zoe" pushEx.commits (by decide),
   push_sender_display_name_resolution.2.1 "bob" [commitAddTest] commitFixBug [] (by decide),
   push_sender_display_name_resolution.2.2 _ _ _ "app" false pushEx emptyDatastore
     commitFixBug [commitAddTest] rfl (by decide)⟩

/-- C5: a ThreadRegistry write failure is non-fatal: whatever subset of the
`createThread` writes fails, `handlePushPayload` assembles and returns
exactly the notification (sender, recipients, subject, body) it would have
returned with all writes succeeding; only the stored registry differs. -/
theorem push_message_unaffected_by_put_failure (env : Env) (pf : String → Bool)
    (payload : PushPayload) (ds : Datastore) :
    GoResult.map Prod.fst
        (handlePushPayload { env with putFails := pf } payload ds)
      = GoResult.map Prod.fst
        (handlePushPayload { env with putFails := fun _ => false } payload ds) := by
  simp only [handlePushPayload]
  split
  · rfl
  · split
    · rfl
    · split
      · rfl
      · split
        · rfl
        · rfl

/-- C6: an unrecognized event-type tag yields the distinct no-message,
no-error outcome without reading the body; a recognized tag with a body that
fails to decode yields an error; the two outcomes are never conflated. -/
theorem handlePayload_unrecognized_vs_decode_error :
    (∀ (env : Env) (eventType : String) (b1 b2 : RawBody) (ds : Datastore),
      eventType ≠ "push" → eventType ≠ "commit_comment" →
      handlePayload env eventType b1 ds = .ok (none, ds)
      ∧ handlePayload env eventType b1 ds = handlePayload env eventType b2 ds)
    ∧ (∀ (env : Env) (b : RawBody) (ds : Datastore),
        b.decodePush = none → handlePayload env "push" b ds = .err)
    ∧ (∀ (env : Env) (b : RawBody) (ds : Datastore),
        b.decodeComment = none → handlePayload env "commit_comment" b ds = .err)
    ∧ (∀ (m : Option MailMessage) (ds' : Datastore),
        (GoResult.err : GoResult (Option MailMessage × Datastore)) ≠ .ok (m, ds')) := by
  refine ⟨?_, ?_, ?_, ?_⟩
  · intro env eventType b1 b2 ds h1 h2
    constructor <;> simp [handlePayload, h1, h2]
  · intro env b ds hb
    simp [handlePayload, hb]
  · intro env b ds hb
    simp +decide [handlePayload, hb]
  · intro m ds' h
    cases h

/-- Witness for C6: the `"issues"` tag is ignored independently of the body,
and malformed bodies for the two recognized tags are errors. -/
theorem handlePayload_unrecognized_vs_decode_error_witness :
    (handlePayload
        (totalEnv (fun _ => "P") (fun _ => "C") (fun s _ => s) (fun _ => false) "app" false)
        "issues" { decodePush := none, decodeComment := none } emptyDatastore
      = .ok (none, emptyDatastore)
      ∧ handlePayload
          (totalEnv (fun _ => "P") (fun _ => "C") (fun s _ => s) (fun _ => false) "app" false)
          "issues" { decodePush := none, decodeComment := none } emptyDatastore
        = handlePayload
            (totalEnv (fun _ => "P") (fun _ => "C") (fun s _ => s) (fun _ => false) "app" false)
            "issues" { decodePush := some pushEx, decodeComment := some commentEx } emptyDatastore)
    ∧ handlePayload
        (totalEnv (fun _ => "P") (fun _ => "C") (fun s _ => s) (fun _ => false) "app" false)
        "push" { decodePush := none, decodeComment := none } emptyDatastore
      = .err
    ∧ handlePayload
        (totalEnv (fun _ => "P") (fun _ => "C") (fun s _ => s) (fun _ => false) "app" false)
        "commit_comment" { decodePush := none, decodeComment := none } emptyDatastore
      = .err
    ∧ (GoResult.err : GoResult (Option MailMessage × Datastore)) ≠ .ok (none, emptyDatastore) :=
  ⟨handlePayload_unrecognized_vs_decode_error.1 _ "issues" _ _ emptyDatastore
      (by decide) (by decide),
   handlePayload_unrecognized_vs_decode_error.2.1 _ _ emptyDatastore rfl,
   handlePayload_unrecognized_vs_decode_error.2.2.1 _ _ emptyDatastore rfl,
   handlePayload_unrecognized_vs_decode_error.2.2.2 none emptyDatastore⟩

/-- A non-empty string has positive length. -/
theorem string_length_pos_of_ne_empty (s : String) (h : s ≠ "") : 0 < s.length := by
  cases s with
  | mk data =>
    cases data with
    | nil => exact absurd rfl h
    | cons c cs => simp [String.length]

/-- Concrete empty-body commit-comment payload used by the witness
instances. -/
def commentEmptyEx : CommitCommentPayload :=
  { repo := repoEx
    comment := { commitID := "abc1234def0000000000000000000000000000ff", body := "" }
    sender := { login := "erin" } }

/-- C7: an empty comment body never invokes the markdown collaborator — the
template context, and hence the whole handler result, is independent of the
collaborator — and the rendered body in the context is empty; a non-empty
body is passed through the collaborator. -/
theorem comment_body_markdown_only_when_nonempty :
    (∀ (md md' : String → Repo → String) (q : CommitCommentPayload) (s u : String),
      q.comment.body = "" →
      mkCommentContext md q s u = mkCommentContext md' q s u
      ∧ (mkCommentContext md q s u).body = "")
    ∧ (∀ (md : String → Repo → String) (q : CommitCommentPayload) (s u : String),
        q.comment.body ≠ "" →
        (mkCommentContext md q s u).body = md q.comment.body q.repo)
    ∧ (∀ (env : Env) (md md' : String → Repo → String) (q : CommitCommentPayload)
          (ds : Datastore),
        q.comment.body = "" →
        handleCommitCommentPayload { env with renderMarkdown := md } q ds
          = handleCommitCommentPayload { env with renderMarkdown := md' } q ds) := by
  refine ⟨?_, ?_, ?_⟩
  · intro md md' q s u h
    constructor <;> simp [mkCommentContext, renderCommentBody, h]
  · intro md q s u h
    have hpos : 0 < q.comment.body.length := string_length_pos_of_ne_empty _ h
    simp [mkCommentContext, renderCommentBody, hpos]
  · intro env md md' q ds h
    simp [handleCommitCommentPayload, mkCommentContext, renderCommentBody, h]

/-- Witness for C7: an empty body yields an empty rendered body and a handler
result independent of the markdown collaborator; the non-empty example body
is passed through it. -/
theorem comment_body_markdown_only_when_nonempty_witness :
    (mkCommentContext (fun s _ => s) commentEmptyEx "abc1234" "u"
        = mkCommentContext (fun _ _ => "X") commentEmptyEx "abc1234" "u"
      ∧ (mkCommentContext (fun s _ => s) commentEmptyEx "abc1234" "u").body = "")
    ∧ (mkCommentContext (fun s _ => s) commentEx "abc1234" "u").body
        = (fun s _ => s) commentEx.comment.body commentEx.repo
    ∧ handleCommitCommentPayload
        { totalEnv (fun _ => "P") (fun _ => "C") (fun s _ => s) (fun _ => false) "app" false
            with renderMarkdown := fun s _ => s } commentEmptyEx emptyDatastore
      = handleCommitCommentPayload
          { totalEnv (fun _ => "P") (fun _ => "C") (fun s _ => s) (fun _ => false) "app" false
              with renderMarkdown := fun _ _ => "X" } commentEmptyEx emptyDatastore :=
  ⟨comment_body_markdown_only_when_nonempty.1 _ _ commentEmptyEx "abc1234" "u" rfl,
   comment_body_markdown_only_when_nonempty.2.1 _ commentEx "abc1234" "u" (by decide),
   comment_body_markdown_only_when_nonempty.2.2 _ _ _ commentEmptyEx emptyDatastore rfl⟩

/-- Concrete push payload whose ref (`"short"`) is shorter than the
11-character prefix, exhibiting the unguarded slice. -/
def pushShortRefEx : PushPayload :=
  { ref := "short"
    compare := "https://github.com/org/repo/compare/aaa...bbb"
    repo := repoEx
    pusher := { name := "alice" }
    commits := [commitFixBug] }

/-- C9 counterexample: on a push whose ref is shorter than 11 characters the
slice is out of range and `handlePushPayload` panics — the stripping
operation is not guarded, so processing does fail. -/
theorem push_short_ref_unguarded_panic :
    handlePushPayload
        (totalEnv (fun _ => "P") (fun _ => "C") (fun s _ => s) (fun _ => false) "app" false)
        pushShortRefEx emptyDatastore
      = .panic := by
  rfl

/-- C9 (amended): for a ref of length at least 11 the branch name is the ref
with its first 11 characters removed; for a shorter ref the slice is out of
bounds and `handlePushPayload` panics — the code contains no guard. -/
theorem branch_name_fixed_prefix_strip :
    (∀ (payload : PushPayload), 11 ≤ payload.ref.length →
      goSliceFrom payload.ref 11 = some (payload.ref.drop 11))
    ∧ (∀ (env : Env) (payload : PushPayload) (ds : Datastore),
        payload.ref.length < 11 →
        handlePushPayload env payload ds = .panic) := by
  constructor
  · intro payload h
    simp [goSliceFrom, h]
  · intro env payload ds h
    have hn : goSliceFrom payload.ref 11 = none := by
      rw [goSliceFrom, if_neg (by omega)]
    simp [handlePushPayload, hn]

/-- Witness for C9 (amended): `refs/heads/main` strips to the branch name by
dropping 11 characters; the short-ref example panics. -/
theorem branch_name_fixed_prefix_strip_witness :
    (11 ≤ pushEx.ref.length ∧ goSliceFrom pushEx.ref 11 = some (pushEx.ref.drop 11))
    ∧ (pushShortRefEx.ref.length < 11
      ∧ handlePushPayload
          (totalEnv (fun _ => "P") (fun _ => "C") (fun s _ => s) (fun _ => false) "app" false)
          pushShortRefEx emptyDatastore = .panic) :=
  ⟨⟨by decide, branch_name_fixed_prefix_strip.1 pushEx (by decide)⟩,
   ⟨by decide, branch_name_fixed_prefix_strip.2 _ pushShortRefEx emptyDatastore (by decide)⟩⟩

/-- Concrete push payload with an empty commit list. -/
def pushEmptyEx : PushPayload :=
  { ref := "refs/heads/main"
    compare := "https://github.com/org/repo/compare/aaa...bbb"
    repo := repoEx
    pusher := { name := "alice" }
    commits := [] }

/-- C10: push processing requires at least one commit: with an empty commit
list the first-element access of the display-commit list is out of bounds
(`pushExtensionUrl` has no value) and `handlePushPayload` panics, so no
notification is produced. -/
theorem push_empty_commits_out_of_bounds :
    (∀ (payload : PushPayload), pushExtensionUrl payload [] = none)
    ∧ (∀ (env : Env) (payload : PushPayload) (ds : Datastore),
        payload.commits = [] → 11 ≤ payload.ref.length →
        handlePushPayload env payload ds = .panic) := by
  constructor
  · intro payload
    rfl
  · intro env payload ds hc href
    have hslice : goSliceFrom payload.ref 11 = some (payload.ref.drop 11) := by
      simp [goSliceFrom, href]
    simp [handlePushPayload, hc, hslice, pushExtensionUrl]

/-- Witness for C10: the empty-commit example push panics and yields no
notification. -/
theorem push_empty_commits_out_of_bounds_witness :
    pushExtensionUrl pushEmptyEx [] = none
    ∧ pushEmptyEx.commits = []
    ∧ 11 ≤ pushEmptyEx.ref.length
    ∧ handlePushPayload
        (totalEnv (fun _ => "P") (fun _ => "C") (fun s _ => s) (fun _ => false) "app" false)
        pushEmptyEx emptyDatastore = .panic :=
  ⟨push_empty_commits_out_of_bounds.1 pushEmptyEx,
   rfl, by decide,
   push_empty_commits_out_of_bounds.2 _ pushEmptyEx emptyDatastore rfl (by decide)⟩
